import Mathlib

/-!
# Sticky Notes indicator: the note collection and its view-state machine

A shallow embedding of `StickyNotesIndicator` from `src/extension.js`: the fields
`_notes`, `_currentNoteId`, `_currentView`, the container child, the two entry
widgets, the storage file, and the methods `_loadNotes`, `_saveNotes`,
`_showListView`, `_showEditorView`, `_saveCurrentNote`, `_addNote`, `_deleteNote`
together with the signal handlers that call them.

Widget construction, styling and focus handling are left out.  What is kept of
the widgets is what the handlers read back: which child the container shows,
the text of the two entries and the note object the entry handlers are bound to.

The file `notes.json` is any of: absent, unreadable, not loaded, not valid JSON,
or a JSON document that is `null`, a boolean, a number, a string, an object or an
array of note objects.  A note object carries a string `title`, a string
`content` and, as `id`, whatever primitive value the file gave it (`undefined`
when it has no such property).  Arrays with other elements, and ids that are
themselves arrays or objects, are outside the model.

`GLib.uuid_string_random` is a parameter `uuid : Nat → String`, the `k`-th call
returning `uuid k`; the state counts the calls.  A handler that throws leaves
the fields as they were assigned up to the throw, and later events run on them.
-/

namespace StickyNotes

/-! ## Data model -/

/-- A primitive JavaScript value: what the property `id` of a note read from the
file may be (`undefined` when the note has no such property) and what
`_currentNoteId` may hold.  On these values `===` is equality. -/
inductive JsValue where
  | undefined
  | null
  | bool (b : Bool)
  | num (n : Int)
  | str (s : String)
deriving DecidableEq, Repr

/-- The test `!v`: `undefined`, `null`, `false`, `0` and the empty string are falsy. -/
def falsy : JsValue → Bool
  | .undefined => true
  | .null => true
  | .bool b => !b
  | .num n => n == 0
  | .str s => s == ""

/-- A note object: the value of its property `id` and its two strings `title`
and `content`.  Notes made by the extension have a string id. -/
structure Note where
  id : JsValue
  title : String
  content : String
deriving DecidableEq, Repr

/-- A value returned by `JSON.parse`, which `_loadNotes` assigns to `this._notes`
unchecked.  Arrays are arrays of note objects.  Of a JSON object only the outcome
of `length === 0` is kept, the one thing the extension reads from it before a
`TypeError` ends the call.  Of a number nothing is read. -/
inductive JsDoc where
  | null
  | bool (b : Bool)
  | num (n : Int)
  | str (s : String)
  | object (lengthIsZero : Bool)
  | array (items : List Note)
deriving DecidableEq, Repr

/-- The file `notes.json` as `_loadNotes` meets it.
* `absent`, `unreadable`: `load_contents` throws;
* `unsuccessful`: `load_contents` returns `success = false`;
* `malformed`: the bytes are read and `JSON.parse` throws a `SyntaxError`;
* `json doc`: the bytes are read and `JSON.parse` returns `doc`. -/
inductive Resource where
  | absent
  | unreadable
  | unsuccessful
  | malformed
  | json (doc : JsDoc)
deriving DecidableEq, Repr

/-- The two values of `_currentView`. -/
inductive View where
  | list
  | editor
deriving DecidableEq, Repr

/-- The child of `this._container`.  An editor box carries the position in
`_notes` of the note object captured by its two `text-changed` handlers. -/
inductive Child where
  | empty
  | listBox
  | editorBox (note : Nat)
deriving DecidableEq, Repr

/-- The fields of the indicator, the storage file, and the number of calls made
so far to `GLib.uuid_string_random`.  An entry field is `none` while undefined
and otherwise holds the text of the entry widget. -/
structure State where
  _notes : JsDoc
  _currentNoteId : JsValue
  _currentView : View
  _container : Child
  _titleEntry : Option String
  _contentEntry : Option String
  stored : Resource
  uuidCalls : Nat
deriving DecidableEq, Repr

/-- How a method or handler ends: it returns (`done`) or a `TypeError` leaves it
(`threw`); either way the fields keep what was assigned up to that point. -/
inductive Outcome where
  | done (s : State)
  | threw (s : State)
deriving DecidableEq, Repr

/-- The state a method or handler leaves behind. -/
def Outcome.state : Outcome → State
  | .done s => s
  | .threw s => s

/-- Sequencing of two calls: the second runs only when the first returned. -/
def Outcome.andThen (o : Outcome) (f : State → Outcome) : Outcome :=
  match o with
  | .done s => f s
  | .threw s => .threw s

/-! ## JavaScript operations used on `this._notes` -/

/-- The test `this._notes.length === 0`; `none` is the `TypeError` of reading a
property of `null`.  Booleans and numbers have no `length`. -/
def lengthIsZero : JsDoc → Option Bool
  | .null => none
  | .bool _ => some false
  | .num _ => some false
  | .str s => some (s == "")
  | .object z => some z
  | .array items => some items.isEmpty

/-- The call `this._notes.push(note)`; only arrays have `push`, on any other
value the call is a `TypeError` (`none`). -/
def push : JsDoc → Note → Option JsDoc
  | .array items, note => some (.array (items ++ [note]))
  | _, _ => none

/-- The call `items.find(p)` on an array: the first note satisfying `p`, with its
position in the array. -/
def find (p : Note → Bool) : List Note → Option (Nat × Note)
  | [] => none
  | n :: ns => if p n then some (0, n) else (find p ns).map (fun r => (r.1 + 1, r.2))

/-- In-place mutation of the note object at position `i` of the array. -/
def assign (f : Note → Note) : Nat → List Note → List Note
  | _, [] => []
  | 0, n :: ns => f n :: ns
  | i + 1, n :: ns => n :: assign f i ns

/-- The comparison `n.id === id`, the callback of `find` in `_showEditorView` and
`_saveCurrentNote`. -/
def idIs (id : JsValue) (n : Note) : Bool :=
  n.id == id

/-- The object literal of `_loadNotes`, `_addNote` and `_deleteNote`. -/
def defaultNote (id : String) : Note :=
  { id := .str id, title := "New Note", content := "" }

/-! ## Methods of the indicator -/

/-- The method `_showListView`: sets the view, clears the container, makes a
button for every note of `_notes` and shows the list box.  `for ... of` runs over
arrays and strings and is a `TypeError` on every other value. -/
def _showListView (s : State) : Outcome :=
  let s1 := { s with _currentView := View.list, _container := Child.empty }
  match s1._notes with
  | .array _ => .done { s1 with _container := Child.listBox }
  | .str _ => .done { s1 with _container := Child.listBox }
  | _ => .threw s1

/-- The method `_showEditorView`: sets the view, clears the container, looks the
active note up and falls back to the list view when there is none; otherwise
builds the editor on that note and stores the two entries. -/
def _showEditorView (s : State) : Outcome :=
  let s1 := { s with _currentView := View.editor, _container := Child.empty }
  match s1._notes with
  | .array items =>
    match find (idIs s1._currentNoteId) items with
    | none => _showListView s1
    | some (i, note) =>
      .done { s1 with _container := Child.editorBox i,
                      _titleEntry := some note.title,
                      _contentEntry := some note.content }
  | _ => .threw s1

/-- The method `_saveCurrentNote`: returns at once when `_currentNoteId` is falsy;
otherwise copies the text of the two entries into the note found under that id. -/
def _saveCurrentNote (s : State) : Outcome :=
  if falsy s._currentNoteId then .done s
  else
    match s._notes with
    | .array items =>
      match find (idIs s._currentNoteId) items, s._titleEntry, s._contentEntry with
      | some (i, _), some t, some c =>
        .done { s with _notes := .array (assign (fun n => { n with title := t, content := c }) i items) }
      | _, _, _ => .done s
    | _ => .threw s

/-- The method `_saveNotes`: replaces the contents of the file by the serialised
`_notes`; a failing write is caught and logged.  `writeOk` tells whether
`replace_contents` succeeds. -/
def _saveNotes (writeOk : Bool) (s : State) : Outcome :=
  if writeOk then .done { s with stored := Resource.json s._notes } else .done s

/-- The method `_addNote`, with `uuid k` the result of the `k`-th call of
`GLib.uuid_string_random`. -/
def _addNote (uuid : Nat → String) (s : State) : Outcome :=
  let newNote := defaultNote (uuid s.uuidCalls)
  let s1 := { s with uuidCalls := s.uuidCalls + 1 }
  match push s1._notes newNote with
  | none => .threw s1
  | some doc => _showEditorView { s1 with _notes := doc, _currentNoteId := newNote.id }

/-- The method `_deleteNote`: `filter` exists on arrays only. -/
def _deleteNote (uuid : Nat → String) (noteId : JsValue) (s : State) : Outcome :=
  match s._notes with
  | .array items =>
    let kept := items.filter (fun n => n.id != noteId)
    if kept.isEmpty then
      _showListView { s with _notes := .array (kept ++ [defaultNote (uuid s.uuidCalls)]),
                             uuidCalls := s.uuidCalls + 1 }
    else _showListView { s with _notes := .array kept }
  | _ => .threw s

/-- The `try` block of `_loadNotes`: the value `_notes` holds after it. -/
def readNotes (s : State) : JsDoc :=
  match s.stored with
  | .json doc => doc
  | .unsuccessful => s._notes
  | .absent => .array []
  | .unreadable => .array []
  | .malformed => .array []

/-- The method `_loadNotes`. -/
def _loadNotes (uuid : Nat → String) (s : State) : Outcome :=
  let s1 := { s with _notes := readNotes s }
  match lengthIsZero s1._notes with
  | none => .threw s1
  | some true =>
    let note := defaultNote (uuid s1.uuidCalls)
    let s2 := { s1 with uuidCalls := s1.uuidCalls + 1 }
    match push s2._notes note with
    | none => .threw s2
    | some doc => _showEditorView { s2 with _notes := doc, _currentNoteId := note.id }
  | some false => _showListView s1

/-- The fields as `_init` assigns them before it calls `_loadNotes`, next to the
storage file found at that moment. -/
def fields (file : Resource) : State :=
  { _notes := .array [], _currentNoteId := .null, _currentView := View.list,
    _container := Child.empty, _titleEntry := none, _contentEntry := none,
    stored := file, uuidCalls := 0 }

/-- The constructor `_init`: the field assignments, then `_loadNotes`. -/
def _init (uuid : Nat → String) (file : Resource) : Outcome :=
  _loadNotes uuid (fields file)

/-! ## Signal handlers -/

/-- The `clicked` handler of a note button, `id` being `note.id` of the listed item
(`undefined` when the item has no such property). -/
def noteButtonClicked (id : JsValue) (s : State) : Outcome :=
  _showEditorView { s with _currentNoteId := id }

/-- The `clicked` handler of the back button. -/
def backButtonClicked (s : State) : Outcome :=
  (_saveCurrentNote s).andThen _showListView

/-- The `text-changed` handler of the title entry, run after the text of the entry
became `text`: it assigns the text to the captured note.  The handler exists only
on the entry of the editor box on display (`none` otherwise). -/
def titleTextChanged (text : String) (s : State) : Option Outcome :=
  match s._container with
  | .editorBox i =>
    match s._notes with
    | .array items =>
      some (.done { s with _titleEntry := some text,
                           _notes := .array (assign (fun n => { n with title := text }) i items) })
    | _ => some (.done { s with _titleEntry := some text })
  | _ => none

/-- The `text-changed` handler of the content entry. -/
def contentTextChanged (text : String) (s : State) : Option Outcome :=
  match s._container with
  | .editorBox i =>
    match s._notes with
    | .array items =>
      some (.done { s with _contentEntry := some text,
                           _notes := .array (assign (fun n => { n with content := text }) i items) })
    | _ => some (.done { s with _contentEntry := some text })
  | _ => none

/-- The `menu-state-changed` handler: saves when the menu closes. -/
def menuStateChanged (state : Bool) (writeOk : Bool) (s : State) : Outcome :=
  if !state then _saveNotes writeOk s else .done s

/-- The method `destroy`. -/
def destroy (writeOk : Bool) (s : State) : Outcome :=
  _saveNotes writeOk s

/-! ## Event sequences -/

/-- The navigation and edit events of the view controller. -/
inductive Event where
  | select (id : JsValue)
  | add
  | delete (id : JsValue)
  | back
  | editTitle (text : String)
  | editContent (text : String)
deriving DecidableEq, Repr

/-- The handler an event runs; `none` when the event has no handler to run. -/
def step (uuid : Nat → String) (s : State) : Event → Option Outcome
  | .select id => some (noteButtonClicked id s)
  | .add => some (_addNote uuid s)
  | .delete id => some (_deleteNote uuid id s)
  | .back => some (backButtonClicked s)
  | .editTitle text => titleTextChanged text s
  | .editContent text => contentTextChanged text s

/-- The state after a sequence of events, each handler running to its end (return
or throw) before the next event. -/
def run (uuid : Nat → String) (s : State) : List Event → State
  | [] => s
  | e :: es =>
    match step uuid s e with
    | none => run uuid s es
    | some o => run uuid o.state es

/-! ## Predicates of the claims -/

/-- The collection is non-empty: `_notes` is an array with at least one note. -/
def hasItems : JsDoc → Bool
  | .array items => !items.isEmpty
  | _ => false

/-- The ids of the notes of the collection (of an array; no other value holds
note objects). -/
def ids : JsDoc → List JsValue
  | .array items => items.map Note.id
  | _ => []

/-- The value is set: it is neither `undefined` nor `null`. -/
def isSet : JsValue → Bool
  | .undefined => false
  | .null => false
  | _ => true

/-- The active id is set and is the id of a note of the collection. -/
def resolves (s : State) : Bool :=
  isSet s._currentNoteId && (ids s._notes).contains s._currentNoteId

/-- The state of a view controller on a note collection: `_notes` is an array,
every note has an id that is set, and in editor mode the active id resolves. -/
def editorSound (s : State) : Prop :=
  (∃ items, s._notes = .array items) ∧ (∀ v ∈ ids s._notes, isSet v = true) ∧
  (s._currentView = .editor → resolves s = true)

/-- Two values of `_notes` hold the same notes up to their titles and contents:
two arrays with the same ids in the same order, or the same value. -/
def sameIds : JsDoc → JsDoc → Prop
  | .array items, .array items' => items'.map Note.id = items.map Note.id
  | d, d' => d' = d

/-- The ids of the collection are accounted for: `_notes` is an array, its ids
are pairwise distinct, and each of them was on file at startup (`loaded`) or
was returned by one of the calls made so far to the generator. -/
def idsTraced (uuid : Nat → String) (loaded : List JsValue) (s : State) : Prop :=
  (∃ items, s._notes = .array items) ∧ (ids s._notes).Nodup ∧
  ∀ x ∈ ids s._notes, x ∈ loaded ∨ ∃ k, k < s.uuidCalls ∧ .str (uuid k) = x

/-! ## Sample data -/

/-- A generator that never repeats: the `k`-th id is `k + 1` letters `u`. -/
def uuidSample (k : Nat) : String :=
  String.mk (List.replicate (k + 1) 'u')

/-- Note N1 of scenario B. -/
def groceries : Note := { id := .str "n1", title := "Groceries", content := "Milk" }

/-- Note N2 of scenario B. -/
def todo : Note := { id := .str "n2", title := "Todo", content := "Call Bob" }

/-- Scenario B: the two notes are on file, the indicator starts, N2 is selected,
its content is edited and the back button is clicked. -/
def scenarioB : State :=
  run uuidSample (_init uuidSample (.json (.array [groceries, todo]))).state
    [.select (.str "n2"), .editContent "Call Bob at 5pm", .back]

/-- A list view on the single note N1, as left by a start on a file that holds it. -/
def listOfOne : State :=
  (_init uuidSample (.json (.array [groceries]))).state

/-- A list view on the notes N1 and N2 of scenario B. -/
def listOfTwo : State :=
  (_init uuidSample (.json (.array [groceries, todo]))).state

/-- The editor of scenario B on N2 after its content was edited, before `back`. -/
def editorOnTodo : State :=
  run uuidSample listOfTwo [.select (.str "n2"), .editContent "Call Bob at 5pm"]

/-- A file holding two notes with the same id. -/
def duplicated : Resource :=
  .json (.array [groceries, { id := .str "n1", title := "Errands", content := "Post office" }])

/-- A file holding one note that has no property `id`. -/
def idless : Resource :=
  .json (.array [{ id := .undefined, title := "Idea", content := "Buy stamps" }])

/-- The list view on the note of `idless`, as startup leaves it. -/
def listOfIdless : State :=
  (_init uuidSample idless).state

/-- The state after the button of the note of `idless` was clicked. -/
def editorOnIdless : State :=
  run uuidSample listOfIdless [.select .undefined]

/-- The state startup leaves on a file holding the JSON string "abc". -/
def onString : State :=
  (_init uuidSample (.json (.str "abc"))).state

/-! # Theorems -/

/-! ## Array operations -/

theorem find_none_iff (p : Note → Bool) (l : List Note) :
    find p l = none ↔ ∀ n ∈ l, p n = false := by
  induction l with
  | nil => simp [find]
  | cons a l ih =>
    by_cases h : p a = true
    · simp [find, h]
    · simp [find, h, ih]

theorem find_some_of_mem (p : Note → Bool) (l : List Note) (n : Note) (hn : n ∈ l)
    (hp : p n = true) : ∃ r, find p l = some r := by
  cases hf : find p l with
  | some r => exact ⟨r, rfl⟩
  | none =>
    have := (find_none_iff p l).1 hf n hn
    simp [hp] at this

theorem find_some_spec (p : Note → Bool) (l : List Note) (i : Nat) (n : Note)
    (h : find p l = some (i, n)) : l[i]? = some n ∧ p n = true := by
  induction l generalizing i with
  | nil => simp [find] at h
  | cons a l ih =>
    by_cases hp : p a = true
    · simp [find, hp] at h
      obtain ⟨rfl, rfl⟩ := h
      simp [hp]
    · simp [find, hp] at h
      obtain ⟨j, hj, rfl⟩ := h
      simpa using ih j hj

theorem assign_length (f : Note → Note) (i : Nat) (l : List Note) :
    (assign f i l).length = l.length := by
  induction l generalizing i with
  | nil => simp [assign]
  | cons a l ih => cases i <;> simp [assign, ih]

theorem assign_map_id (f : Note → Note) (hf : ∀ n, (f n).id = n.id) (i : Nat) (l : List Note) :
    (assign f i l).map Note.id = l.map Note.id := by
  induction l generalizing i with
  | nil => simp [assign]
  | cons a l ih => cases i <;> simp [assign, ih, hf]

theorem assign_get_ne (f : Note → Note) (i j : Nat) (l : List Note) (h : j ≠ i) :
    (assign f i l)[j]? = l[j]? := by
  induction l generalizing i j with
  | nil => simp [assign]
  | cons a l ih =>
    cases i with
    | zero =>
      cases j with
      | zero => exact absurd rfl h
      | succ j => simp [assign]
    | succ i =>
      cases j with
      | zero => simp [assign]
      | succ j => simpa [assign] using ih i j (by omega)

theorem assign_get_eq (f : Note → Note) (i : Nat) (l : List Note) (n : Note)
    (h : l[i]? = some n) : (assign f i l)[i]? = some (f n) := by
  induction l generalizing i with
  | nil => simp at h
  | cons a l ih =>
    cases i with
    | zero => simp at h; simp [assign, h]
    | succ i => simp at h; simpa [assign] using ih i h

/-! ## The two views -/

theorem showListView_array (s : State) (items : List Note) (h : s._notes = .array items) :
    _showListView s = .done { s with _currentView := .list, _container := .listBox } := by
  simp [_showListView, h]

theorem showListView_notes (s : State) : (_showListView s).state._notes = s._notes := by
  cases h : s._notes <;> simp [_showListView, h, Outcome.state]

theorem showEditorView_notes (s : State) : (_showEditorView s).state._notes = s._notes := by
  cases h : s._notes with
  | array items =>
    cases hf : find (idIs s._currentNoteId) items with
    | none => simp [_showEditorView, h, hf, _showListView, Outcome.state]
    | some r => simp [_showEditorView, h, hf, Outcome.state]
  | _ => simp [_showEditorView, h, Outcome.state]

/-! ## Startup -/

theorem readNotes_fields (file : Resource) :
    readNotes (fields file) =
      match file with
      | .json doc => doc
      | _ => .array [] := by
  cases file <;> rfl

theorem loadNotes_empty (uuid : Nat → String) (s : State) (h : readNotes s = .array []) :
    _loadNotes uuid s = .done
      { s with _notes := .array [defaultNote (uuid s.uuidCalls)],
               _currentNoteId := .str (uuid s.uuidCalls),
               _currentView := .editor, _container := .editorBox 0,
               _titleEntry := some "New Note", _contentEntry := some "",
               uuidCalls := s.uuidCalls + 1 } := by
  simp [_loadNotes, h, lengthIsZero, push, _showEditorView, find, idIs, defaultNote]

theorem loadNotes_cons (uuid : Nat → String) (s : State) (n : Note) (ns : List Note)
    (h : readNotes s = .array (n :: ns)) :
    _loadNotes uuid s = .done
      { s with _notes := .array (n :: ns), _currentView := .list, _container := .listBox } := by
  simp [_loadNotes, h, lengthIsZero, _showListView]

theorem bootstrap_outcome (uuid : Nat → String) (file : Resource)
    (h : readNotes (fields file) = .array []) :
    _init uuid file = .done
      { _notes := .array [defaultNote (uuid 0)], _currentNoteId := .str (uuid 0),
        _currentView := .editor, _container := .editorBox 0,
        _titleEntry := some "New Note", _contentEntry := some "",
        stored := file, uuidCalls := 1 } := by
  rw [_init, loadNotes_empty uuid _ h]
  rfl

theorem adopt_outcome (uuid : Nat → String) (file : Resource) (n : Note) (ns : List Note)
    (h : readNotes (fields file) = .array (n :: ns)) :
    _init uuid file = .done
      { _notes := .array (n :: ns), _currentNoteId := .null,
        _currentView := .list, _container := .listBox,
        _titleEntry := none, _contentEntry := none,
        stored := file, uuidCalls := 0 } := by
  rw [_init, loadNotes_cons uuid _ n ns h]
  rfl

theorem init_done_of_array (uuid : Nat → String) (file : Resource) (items : List Note)
    (hload : readNotes (fields file) = .array items) :
    ∃ s0, _init uuid file = .done s0 := by
  cases items with
  | nil => exact ⟨_, bootstrap_outcome uuid file hload⟩
  | cons n ns => exact ⟨_, adopt_outcome uuid file n ns hload⟩

/-- Claim C8.  Bootstrap at startup: when the value loaded by the `try` block of
`_loadNotes` is the empty array, `_init` returns with exactly one note, titled
"New Note", with empty content and the first generated id, in editor mode with
that id active; when it is a non-empty array of notes, `_init` returns with that
array unchanged, in list mode. -/
theorem loadNotes_bootstrap (uuid : Nat → String) (file : Resource) (items : List Note)
    (h : readNotes (fields file) = .array items) :
    ∃ s, _init uuid file = .done s ∧
      (items = [] →
        s._notes = .array [{ id := .str (uuid 0), title := "New Note", content := "" }] ∧
        s._currentView = .editor ∧ s._currentNoteId = .str (uuid 0)) ∧
      (items ≠ [] → s._notes = .array items ∧ s._currentView = .list) := by
  cases items with
  | nil => exact ⟨_, bootstrap_outcome uuid file h, fun _ => ⟨rfl, rfl, rfl⟩, fun hne => absurd rfl hne⟩
  | cons n ns =>
    exact ⟨_, adopt_outcome uuid file n ns h, fun hnil => by simp at hnil, fun _ => ⟨rfl, rfl⟩⟩

/-- Witness of C8 on scenario A (no file: one default note, editor mode) together
with a start on the two notes of scenario B (adopted as they are, list mode). -/
theorem loadNotes_bootstrap_witness :
    (∃ s, _init uuidSample .absent = .done s ∧
      ([] = ([] : List Note) →
        s._notes = .array [{ id := .str (uuidSample 0), title := "New Note", content := "" }] ∧
        s._currentView = .editor ∧ s._currentNoteId = .str (uuidSample 0)) ∧
      (([] : List Note) ≠ [] → s._notes = .array [] ∧ s._currentView = .list)) ∧
    (∃ s, _init uuidSample (.json (.array [groceries, todo])) = .done s ∧
      ([groceries, todo] = [] →
        s._notes = .array [{ id := .str (uuidSample 0), title := "New Note", content := "" }] ∧
        s._currentView = .editor ∧ s._currentNoteId = .str (uuidSample 0)) ∧
      ([groceries, todo] ≠ [] → s._notes = .array [groceries, todo] ∧ s._currentView = .list)) :=
  ⟨loadNotes_bootstrap uuidSample .absent [] rfl,
   loadNotes_bootstrap uuidSample (.json (.array [groceries, todo])) [groceries, todo] rfl⟩

/-- The `catch` path of `_loadNotes`.  When the file is absent, unreadable, not
loaded or not valid JSON, the `try` block leaves the empty array in `_notes`,
`_init` returns and startup ends with the default note, in editor mode on it. -/
theorem loadNotes_catch_path (uuid : Nat → String) (file : Resource)
    (h : file = .absent ∨ file = .unreadable ∨ file = .unsuccessful ∨ file = .malformed) :
    readNotes (fields file) = .array [] ∧
    ∃ s, _init uuid file = .done s ∧
      s._notes = .array [{ id := .str (uuid 0), title := "New Note", content := "" }] ∧
      s._currentView = .editor ∧ s._currentNoteId = .str (uuid 0) := by
  have hr : readNotes (fields file) = .array [] := by
    rcases h with h | h | h | h <;> subst h <;> rfl
  exact ⟨hr, _, bootstrap_outcome uuid file hr, rfl, rfl, rfl⟩

/-- Claim C7, at its failing input.  The file holds the valid JSON text `null`,
which is not an array of notes.  The claim has `_loadNotes` return and end with
the default note; the code assigns `null` to `_notes` inside the `try` block and
reads `length` of it after the block, which throws out of `_loadNotes` and of
`_init`: no note is created and the list view is never shown. -/
theorem loadNotes_raises_on_null :
    _init uuidSample (.json .null) =
      .threw { fields (.json .null) with _notes := .null } ∧
    hasItems (_init uuidSample (.json .null)).state._notes = false := by
  decide

/-- Claim C1, at its failing input.  The file holds the valid JSON string "abc".
The claim has the note collection non-empty after startup and after every later
event; the code assigns the string to `_notes`, finds its `length` non-zero and
returns in list mode without any note, and a later add or delete throws on the
string and leaves it in place. -/
theorem notes_empty_on_string_file :
    _init uuidSample (.json (.str "abc")) = .done onString ∧
    onString._notes = .str "abc" ∧
    hasItems onString._notes = false ∧
    ids onString._notes = [] ∧
    _addNote uuidSample onString = .threw { onString with uuidCalls := 1 } ∧
    _deleteNote uuidSample .undefined onString = .threw onString ∧
    hasItems (run uuidSample onString [.add, .delete .undefined, .back])._notes = false := by
  decide

/-! ## Adding a note -/

theorem find_append_last (p : Note → Bool) (l : List Note) (x : Note) (hp : p x = true) :
    ∃ r, find p (l ++ [x]) = some r :=
  find_some_of_mem p (l ++ [x]) x (by simp) hp

theorem addNote_eq_showEditorView (uuid : Nat → String) (s : State) (items : List Note)
    (hn : s._notes = .array items) :
    _addNote uuid s = _showEditorView
      { s with uuidCalls := s.uuidCalls + 1,
               _notes := .array (items ++ [defaultNote (uuid s.uuidCalls)]),
               _currentNoteId := .str (uuid s.uuidCalls) } := by
  simp [_addNote, hn, push, defaultNote]

theorem addNote_outcome (uuid : Nat → String) (s : State) (items : List Note)
    (h : s._notes = .array items) :
    ∃ (i : Nat) (n : Note), _addNote uuid s = .done
      { s with _notes := .array (items ++ [defaultNote (uuid s.uuidCalls)]),
               _currentNoteId := .str (uuid s.uuidCalls),
               _currentView := .editor, _container := .editorBox i,
               _titleEntry := some n.title, _contentEntry := some n.content,
               uuidCalls := s.uuidCalls + 1 } := by
  obtain ⟨⟨i, n⟩, hf⟩ := find_append_last (idIs (.str (uuid s.uuidCalls))) items
    (defaultNote (uuid s.uuidCalls)) (by simp [idIs, defaultNote])
  refine ⟨i, n, ?_⟩
  simp only [defaultNote] at hf
  simp [_addNote, h, push, _showEditorView, hf, defaultNote]

/-- Claim C9.  On a state whose collection is the array `items`, `_addNote` returns
with the collection `items` followed by one new note, which has the freshly
generated id, the title "New Note" and empty content (the notes of `items` and
their order are as before, the new note is last); the mode is editor and the
active id is the new id. -/
theorem addNote_appends (uuid : Nat → String) (s : State) (items : List Note)
    (h : s._notes = .array items) :
    ∃ s', _addNote uuid s = .done s' ∧
      s'._notes = .array (items ++
        [{ id := .str (uuid s.uuidCalls), title := "New Note", content := "" }]) ∧
      s'._currentView = .editor ∧
      s'._currentNoteId = .str (uuid s.uuidCalls) := by
  obtain ⟨i, n, ho⟩ := addNote_outcome uuid s items h
  exact ⟨_, ho, rfl, rfl, rfl⟩

/-- Witness of C9 on scenario D: from the list of N1, `add` gives N1 followed by
the new note, in editor mode on the new note. -/
theorem addNote_appends_witness :
    listOfOne._notes = .array [groceries] ∧
    ∃ s', _addNote uuidSample listOfOne = .done s' ∧
      s'._notes = .array ([groceries] ++
        [{ id := .str (uuidSample listOfOne.uuidCalls), title := "New Note", content := "" }]) ∧
      s'._currentView = .editor ∧
      s'._currentNoteId = .str (uuidSample listOfOne.uuidCalls) :=
  ⟨rfl, addNote_appends uuidSample listOfOne [groceries] rfl⟩

/-! ## Deleting a note -/

theorem deleteNote_outcome (uuid : Nat → String) (noteId : JsValue) (s : State)
    (items : List Note) (h : s._notes = .array items) :
    _deleteNote uuid noteId s = .done
      (if items.filter (fun n => n.id != noteId) = [] then
        { s with _notes := .array [defaultNote (uuid s.uuidCalls)],
                 uuidCalls := s.uuidCalls + 1,
                 _currentView := .list, _container := .listBox }
      else
        { s with _notes := .array (items.filter (fun n => n.id != noteId)),
                 _currentView := .list, _container := .listBox }) := by
  by_cases hk : items.filter (fun n => n.id != noteId) = []
  · simp [_deleteNote, h, hk, _showListView]
  · simp [_deleteNote, h, hk, _showListView]

theorem filter_id_self (noteId : JsValue) (items : List Note)
    (h : ∀ n ∈ items, n.id ≠ noteId) : items.filter (fun n => n.id != noteId) = items := by
  apply List.filter_eq_self.2
  intro n hn
  simpa using h n hn

theorem filter_nil_mem (noteId : JsValue) (items : List Note) (hne : items ≠ [])
    (h : items.filter (fun n => n.id != noteId) = []) : noteId ∈ items.map Note.id := by
  cases items with
  | nil => exact absurd rfl hne
  | cons a l =>
    have ha := (List.filter_eq_nil_iff.1 h) a (by simp)
    simp at ha
    simp [ha]

/-- Claim C10.  On a state whose collection is the array `items`, `_deleteNote`
returns in list mode.  When some note has another id, the collection becomes
`items` without the notes of that id, the others unchanged and in their order
(and this is `items` itself when no note has that id).  When no note would be
left, the collection becomes exactly one default note, titled "New Note", with
empty content and the freshly generated id; a generated id that is fresh (not
the id of a note of `items`) differs from the id deleted. -/
theorem deleteNote_removes (uuid : Nat → String) (noteId : JsValue) (s : State)
    (items : List Note) (h : s._notes = .array items) :
    ∃ s', _deleteNote uuid noteId s = .done s' ∧ s'._currentView = .list ∧
      (items.filter (fun n => n.id != noteId) ≠ [] →
        s'._notes = .array (items.filter (fun n => n.id != noteId))) ∧
      ((∀ n ∈ items, n.id ≠ noteId) → items.filter (fun n => n.id != noteId) = items) ∧
      (items.filter (fun n => n.id != noteId) = [] →
        s'._notes = .array [{ id := .str (uuid s.uuidCalls), title := "New Note", content := "" }] ∧
        (items ≠ [] → .str (uuid s.uuidCalls) ∉ items.map Note.id →
          .str (uuid s.uuidCalls) ≠ noteId)) := by
  refine ⟨_, deleteNote_outcome uuid noteId s items h, ?_, ?_, filter_id_self noteId items, ?_⟩
  · split <;> rfl
  · intro hk
    simp [hk]
  · intro hk
    refine ⟨by simp [hk, defaultNote], fun hne hfresh heq => ?_⟩
    exact hfresh (heq ▸ filter_nil_mem noteId items hne hk)

/-- Witness of C10 on scenario C (the only note N1 is deleted; one default note
with another id takes its place and the mode is list) and on the list of N1 and
N2, from which N1 is deleted and N2 stays. -/
theorem deleteNote_removes_witness :
    (listOfOne._notes = .array [groceries] ∧
    ∃ s', _deleteNote uuidSample (.str "n1") listOfOne = .done s' ∧ s'._currentView = .list ∧
      ([groceries].filter (fun n => n.id != .str "n1") ≠ [] →
        s'._notes = .array ([groceries].filter (fun n => n.id != .str "n1"))) ∧
      ((∀ n ∈ [groceries], n.id ≠ .str "n1") →
        [groceries].filter (fun n => n.id != .str "n1") = [groceries]) ∧
      ([groceries].filter (fun n => n.id != .str "n1") = [] →
        s'._notes = .array
          [{ id := .str (uuidSample listOfOne.uuidCalls), title := "New Note", content := "" }] ∧
        ([groceries] ≠ [] → .str (uuidSample listOfOne.uuidCalls) ∉ [groceries].map Note.id →
          JsValue.str (uuidSample listOfOne.uuidCalls) ≠ .str "n1"))) ∧
    (listOfTwo._notes = .array [groceries, todo] ∧
    ∃ s', _deleteNote uuidSample (.str "n1") listOfTwo = .done s' ∧ s'._currentView = .list ∧
      ([groceries, todo].filter (fun n => n.id != .str "n1") ≠ [] →
        s'._notes = .array ([groceries, todo].filter (fun n => n.id != .str "n1"))) ∧
      ((∀ n ∈ [groceries, todo], n.id ≠ .str "n1") →
        [groceries, todo].filter (fun n => n.id != .str "n1") = [groceries, todo]) ∧
      ([groceries, todo].filter (fun n => n.id != .str "n1") = [] →
        s'._notes = .array
          [{ id := .str (uuidSample listOfTwo.uuidCalls), title := "New Note", content := "" }] ∧
        ([groceries, todo] ≠ [] →
          .str (uuidSample listOfTwo.uuidCalls) ∉ [groceries, todo].map Note.id →
          JsValue.str (uuidSample listOfTwo.uuidCalls) ≠ .str "n1"))) :=
  ⟨⟨rfl, deleteNote_removes uuidSample (.str "n1") listOfOne [groceries] rfl⟩,
   ⟨rfl, deleteNote_removes uuidSample (.str "n1") listOfTwo [groceries, todo] rfl⟩⟩

theorem deleteNote_not_array (uuid : Nat → String) (noteId : JsValue) (s : State)
    (h : ∀ items, s._notes ≠ .array items) : _deleteNote uuid noteId s = .threw s := by
  cases hn : s._notes with
  | array items => exact absurd hn (h items)
  | _ => simp [_deleteNote, hn]

/-- Claim C6.  Calling `_deleteNote` twice in a row with the same id ends as calling
it once: the second call changes nothing, also when the first call removed the
last note and put a default note in its place.  The id generated for that
default note is taken to be fresh, hence not the id being deleted. -/
theorem deleteNote_idempotent (uuid : Nat → String) (noteId : JsValue) (s : State)
    (hfresh : .str (uuid s.uuidCalls) ≠ noteId) :
    _deleteNote uuid noteId (_deleteNote uuid noteId s).state = _deleteNote uuid noteId s := by
  cases hn : s._notes with
  | array items =>
    rw [deleteNote_outcome uuid noteId s items hn]
    by_cases hk : items.filter (fun n => n.id != noteId) = []
    · rw [if_pos hk]
      simp only [Outcome.state]
      rw [deleteNote_outcome uuid noteId _ [defaultNote (uuid s.uuidCalls)] rfl]
      simp [defaultNote, hfresh]
    · rw [if_neg hk]
      simp only [Outcome.state]
      rw [deleteNote_outcome uuid noteId _ (items.filter (fun n => n.id != noteId)) rfl]
      simp [hk]
  | _ =>
    have h1 : _deleteNote uuid noteId s = .threw s := by simp [_deleteNote, hn]
    rw [h1]
    exact h1

/-- Witness of C6 on the list of the single note N1, whose deletion creates a
default note with another id. -/
theorem deleteNote_idempotent_witness :
    JsValue.str (uuidSample listOfOne.uuidCalls) ≠ .str "n1" ∧
    _deleteNote uuidSample (.str "n1") (_deleteNote uuidSample (.str "n1") listOfOne).state =
      _deleteNote uuidSample (.str "n1") listOfOne :=
  ⟨by decide, deleteNote_idempotent uuidSample (.str "n1") listOfOne (by decide)⟩

/-! ## Selecting a note -/

theorem find_idIs_none (id : JsValue) (items : List Note) (h : id ∉ items.map Note.id) :
    find (idIs id) items = none := by
  rw [find_none_iff]
  intro n hn
  simp only [idIs, beq_eq_false_iff_ne, ne_eq]
  intro he
  exact h (he ▸ List.mem_map_of_mem Note.id hn)

theorem select_unknown_outcome (s : State) (items : List Note) (id : JsValue)
    (h : s._notes = .array items) (hid : id ∉ items.map Note.id) :
    noteButtonClicked id s = .done
      { s with _currentNoteId := id, _currentView := .list, _container := .listBox } := by
  simp [noteButtonClicked, _showEditorView, h, find_idIs_none id items hid, _showListView]

/-- Claim C5, as amended.  In list mode, on a collection that is the array `items`,
selecting an id that no note of `items` has returns with the mode (list), the
collection, the two entries and the file as they were; the active id is not
kept: it becomes the selected id. -/
theorem select_unknown_id (s : State) (items : List Note) (id : JsValue)
    (h : s._notes = .array items) (hview : s._currentView = .list)
    (hid : id ∉ items.map Note.id) :
    ∃ s', noteButtonClicked id s = .done s' ∧
      s'._currentView = s._currentView ∧ s'._notes = s._notes ∧
      s'._titleEntry = s._titleEntry ∧ s'._contentEntry = s._contentEntry ∧
      s'.stored = s.stored ∧ s'._currentNoteId = id :=
  ⟨_, select_unknown_outcome s items id h hid, hview.symm, rfl, rfl, rfl, rfl, rfl⟩

/-- Witness of C5 as amended: the id "zzz" is selected in the list of N1. -/
theorem select_unknown_id_witness :
    listOfOne._notes = .array [groceries] ∧ listOfOne._currentView = .list ∧
    JsValue.str "zzz" ∉ [groceries].map Note.id ∧
    ∃ s', noteButtonClicked (.str "zzz") listOfOne = .done s' ∧
      s'._currentView = listOfOne._currentView ∧ s'._notes = listOfOne._notes ∧
      s'._titleEntry = listOfOne._titleEntry ∧ s'._contentEntry = listOfOne._contentEntry ∧
      s'.stored = listOfOne.stored ∧ s'._currentNoteId = .str "zzz" :=
  ⟨rfl, rfl, by decide, select_unknown_id listOfOne [groceries] (.str "zzz") rfl rfl (by decide)⟩

/-- Counterexample to C5 as stated: in the list of N1, where no id is active,
selecting the id "zzz", which no note has, returns in list mode with the active
id changed from `null` to "zzz". -/
theorem select_unknown_changes_active_id :
    listOfOne._currentView = .list ∧ JsValue.str "zzz" ∉ ids listOfOne._notes ∧
    listOfOne._currentNoteId = .null ∧
    noteButtonClicked (.str "zzz") listOfOne =
      .done { listOfOne with _currentNoteId := .str "zzz" } ∧
    (noteButtonClicked (.str "zzz") listOfOne).state._currentNoteId ≠ listOfOne._currentNoteId := by
  decide

/-! ## Shape of the outcome of each method -/

theorem showListView_cases (s : State) :
    _showListView s = .done { s with _currentView := .list, _container := .listBox } ∨
    _showListView s = .threw { s with _currentView := .list, _container := .empty } := by
  cases h : s._notes <;> simp [_showListView, h]

theorem find_idIs_some (cur : JsValue) (items : List Note) (i : Nat) (n : Note)
    (h : find (idIs cur) items = some (i, n)) : n.id = cur ∧ n ∈ items := by
  obtain ⟨hget, hp⟩ := find_some_spec _ _ _ _ h
  exact ⟨by simpa [idIs] using hp, List.getElem?_mem hget⟩

theorem showEditorView_cases (s : State) :
    (∃ items i n, s._notes = .array items ∧ find (idIs s._currentNoteId) items = some (i, n) ∧
      _showEditorView s = .done
        { s with _currentView := .editor, _container := .editorBox i,
                 _titleEntry := some n.title, _contentEntry := some n.content }) ∨
    _showEditorView s = .done { s with _currentView := .list, _container := .listBox } ∨
    ((∀ items, s._notes ≠ .array items) ∧
      _showEditorView s = .threw { s with _currentView := .editor, _container := .empty }) := by
  cases h : s._notes with
  | array items =>
    cases hf : find (idIs s._currentNoteId) items with
    | none => right; left; simp [_showEditorView, h, hf, _showListView]
    | some r =>
      obtain ⟨i, n⟩ := r
      left
      exact ⟨items, i, n, rfl, hf, by simp [_showEditorView, h, hf]⟩
  | _ => right; right; simp [_showEditorView, h]

theorem sameIds_refl (d : JsDoc) : sameIds d d := by
  cases d <;> simp [sameIds]

theorem sameIds_assign (f : Note → Note) (hf : ∀ n, (f n).id = n.id) (i : Nat)
    (items : List Note) : sameIds (.array items) (.array (assign f i items)) := by
  simp [sameIds, assign_map_id f hf]

theorem sameIds_ids (d d' : JsDoc) (h : sameIds d d') : ids d' = ids d := by
  cases d <;> cases d' <;> simp_all [sameIds, ids]

theorem sameIds_hasItems (d d' : JsDoc) (h : sameIds d d') : hasItems d' = hasItems d := by
  cases d <;> cases d' <;> simp_all [sameIds, hasItems]
  rename_i a b
  have := congrArg List.length h
  simp at this
  cases a <;> cases b <;> simp_all

theorem sameIds_array (d d' : JsDoc) (h : sameIds d d') (items : List Note)
    (hd : d = .array items) : ∃ items', d' = .array items' := by
  subst hd
  cases d' <;> simp_all [sameIds]

theorem saveCurrentNote_cases (s : State) :
    _saveCurrentNote s = .threw s ∨
    ∃ d, sameIds s._notes d ∧ _saveCurrentNote s = .done { s with _notes := d } := by
  obtain ⟨notes, cur, view, cont, te, ce, st, uc⟩ := s
  by_cases he : falsy cur = true
  · exact Or.inr ⟨notes, sameIds_refl _, by simp [_saveCurrentNote, he]⟩
  · cases notes with
    | array items =>
      right
      cases hf : find (idIs cur) items with
      | none => exact ⟨.array items, sameIds_refl _, by simp [_saveCurrentNote, he, hf]⟩
      | some r =>
        obtain ⟨i, n⟩ := r
        cases te with
        | none => exact ⟨.array items, sameIds_refl _, by simp [_saveCurrentNote, he, hf]⟩
        | some t =>
          cases ce with
          | none => exact ⟨.array items, sameIds_refl _, by simp [_saveCurrentNote, he, hf]⟩
          | some c =>
            exact ⟨.array (assign (fun n => { n with title := t, content := c }) i items),
              sameIds_assign (fun n => { n with title := t, content := c }) (fun _ => rfl) i items,
              by simp [_saveCurrentNote, he, hf]⟩
    | _ => left; simp [_saveCurrentNote, he]

theorem backButtonClicked_cases (s : State) :
    backButtonClicked s = .threw s ∨
    ∃ d, sameIds s._notes d ∧
      (backButtonClicked s = .done { s with _notes := d, _currentView := .list, _container := .listBox } ∨
       backButtonClicked s = .threw { s with _notes := d, _currentView := .list, _container := .empty }) := by
  rcases saveCurrentNote_cases s with h | ⟨d, hd, h⟩
  · left; simp [backButtonClicked, h, Outcome.andThen]
  · right
    refine ⟨d, hd, ?_⟩
    rcases showListView_cases { s with _notes := d } with h2 | h2
    · left; simp [backButtonClicked, h, Outcome.andThen, h2]
    · right; simp [backButtonClicked, h, Outcome.andThen, h2]

theorem titleTextChanged_cases (text : String) (s : State) (o : Outcome)
    (h : titleTextChanged text s = some o) :
    ∃ i d, s._container = .editorBox i ∧ sameIds s._notes d ∧
      o = .done { s with _titleEntry := some text, _notes := d } := by
  obtain ⟨notes, cur, view, cont, te, ce, st, uc⟩ := s
  cases cont with
  | editorBox i =>
    cases notes with
    | array items =>
      simp [titleTextChanged] at h
      exact ⟨i, .array (assign (fun n => { n with title := text }) i items), rfl,
        sameIds_assign (fun n => { n with title := text }) (fun _ => rfl) i items, h.symm⟩
    | _ =>
      simp [titleTextChanged] at h
      exact ⟨i, _, rfl, sameIds_refl _, h.symm⟩
  | _ => simp [titleTextChanged] at h

theorem contentTextChanged_cases (text : String) (s : State) (o : Outcome)
    (h : contentTextChanged text s = some o) :
    ∃ i d, s._container = .editorBox i ∧ sameIds s._notes d ∧
      o = .done { s with _contentEntry := some text, _notes := d } := by
  obtain ⟨notes, cur, view, cont, te, ce, st, uc⟩ := s
  cases cont with
  | editorBox i =>
    cases notes with
    | array items =>
      simp [contentTextChanged] at h
      exact ⟨i, .array (assign (fun n => { n with content := text }) i items), rfl,
        sameIds_assign (fun n => { n with content := text }) (fun _ => rfl) i items, h.symm⟩
    | _ =>
      simp [contentTextChanged] at h
      exact ⟨i, _, rfl, sameIds_refl _, h.symm⟩
  | _ => simp [contentTextChanged] at h

theorem addNote_not_array (uuid : Nat → String) (s : State)
    (h : ∀ items, s._notes ≠ .array items) :
    _addNote uuid s = .threw { s with uuidCalls := s.uuidCalls + 1 } := by
  cases hn : s._notes with
  | array items => exact absurd hn (h items)
  | _ => simp [_addNote, hn, push]

theorem array_or_not (d : JsDoc) : (∃ items, d = .array items) ∨ ∀ items, d ≠ .array items := by
  cases d <;> simp

theorem run_invariant (uuid : Nat → String) (P : State → Prop)
    (hstep : ∀ s e o, P s → step uuid s e = some o → P o.state)
    (s : State) (hs : P s) (es : List Event) : P (run uuid s es) := by
  induction es generalizing s with
  | nil => exact hs
  | cons e es ih =>
    unfold run
    cases ho : step uuid s e with
    | none => exact ih s hs
    | some o => exact ih _ (hstep s e o hs ho)

/-! ## The collection stays non-empty on a loaded array -/

theorem step_hasItems (uuid : Nat → String) (s : State) (e : Event) (o : Outcome)
    (hs : hasItems s._notes = true) (h : step uuid s e = some o) :
    hasItems o.state._notes = true := by
  cases e with
  | select id =>
    simp only [step, Option.some.injEq] at h
    subst h
    rw [noteButtonClicked, showEditorView_notes]
    exact hs
  | add =>
    simp only [step, Option.some.injEq] at h
    subst h
    rcases array_or_not s._notes with ⟨items, hn⟩ | hn
    · obtain ⟨i, n, ho⟩ := addNote_outcome uuid s items hn
      rw [ho]
      simp [Outcome.state, hasItems]
    · rw [addNote_not_array uuid s hn]
      exact hs
  | delete id =>
    simp only [step, Option.some.injEq] at h
    subst h
    rcases array_or_not s._notes with ⟨items, hn⟩ | hn
    · rw [deleteNote_outcome uuid id s items hn]
      by_cases hk : items.filter (fun n => n.id != id) = []
      · rw [if_pos hk]; rfl
      · rw [if_neg hk]
        cases hf : items.filter (fun n => n.id != id) with
        | nil => exact absurd hf hk
        | cons a l => simp [Outcome.state, hasItems, hf]
    · rw [deleteNote_not_array uuid id s hn]
      exact hs
  | back =>
    simp only [step, Option.some.injEq] at h
    subst h
    rcases backButtonClicked_cases s with hb | ⟨d, hd, hb | hb⟩
    · rw [hb]; exact hs
    · rw [hb]
      simpa [Outcome.state, sameIds_hasItems _ _ hd] using hs
    · rw [hb]
      simpa [Outcome.state, sameIds_hasItems _ _ hd] using hs
  | editTitle text =>
    obtain ⟨i, d, _, hd, rfl⟩ := titleTextChanged_cases text s o h
    simpa [Outcome.state, sameIds_hasItems _ _ hd] using hs
  | editContent text =>
    obtain ⟨i, d, _, hd, rfl⟩ := contentTextChanged_cases text s o h
    simpa [Outcome.state, sameIds_hasItems _ _ hd] using hs

/-- When the value loaded at startup is an array of notes (the empty array when
the file is absent, unreadable or not valid JSON), startup returns and after any
finite sequence of select, add, delete, back and edit events `_notes` is an
array with at least one note. -/
theorem notes_never_empty_on_array (uuid : Nat → String) (file : Resource)
    (items0 : List Note) (es : List Event)
    (hload : readNotes (fields file) = .array items0) :
    ∃ s0, _init uuid file = .done s0 ∧ hasItems (run uuid s0 es)._notes = true := by
  obtain ⟨s0, h0⟩ := init_done_of_array uuid file items0 hload
  refine ⟨s0, h0, run_invariant uuid (fun s => hasItems s._notes = true)
    (fun s e o hs ho => step_hasItems uuid s e o hs ho) s0 ?_ es⟩
  cases items0 with
  | nil =>
    rw [bootstrap_outcome uuid file hload] at h0
    cases h0
    rfl
  | cons n ns =>
    rw [adopt_outcome uuid file n ns hload] at h0
    cases h0
    rfl

/-! ## The active id in editor mode -/

theorem resolves_of_found (s : State) (items : List Note) (n : Note)
    (hn : s._notes = .array items) (hmem : n ∈ items) (hid : n.id = s._currentNoteId)
    (hset : ∀ v ∈ ids s._notes, isSet v = true) : resolves s = true := by
  have hin : s._currentNoteId ∈ ids s._notes := by
    rw [hn, ← hid]
    exact List.mem_map_of_mem Note.id hmem
  simp only [resolves, Bool.and_eq_true, List.contains_eq_any_beq, List.any_eq_true]
  exact ⟨hset _ hin, s._currentNoteId, hin, by simp⟩

theorem resolves_congr (s s' : State) (hid : s'._currentNoteId = s._currentNoteId)
    (hn : sameIds s._notes s'._notes) : resolves s' = resolves s := by
  simp [resolves, hid, sameIds_ids _ _ hn]

theorem editorSound_frame (s s' : State) (hs : editorSound s)
    (hn : sameIds s._notes s'._notes) (hid : s'._currentNoteId = s._currentNoteId)
    (hv : s'._currentView = s._currentView) : editorSound s' := by
  obtain ⟨⟨items, hi⟩, hset, hres⟩ := hs
  refine ⟨sameIds_array _ _ hn items hi, ?_, ?_⟩
  · rw [sameIds_ids _ _ hn]; exact hset
  · intro hed
    rw [resolves_congr s s' hid hn]
    exact hres (hv ▸ hed)

theorem editorSound_list (s : State) (harr : ∃ items, s._notes = .array items)
    (hset : ∀ v ∈ ids s._notes, isSet v = true) (hv : s._currentView = .list) :
    editorSound s :=
  ⟨harr, hset, fun hed => by rw [hv] at hed; cases hed⟩

theorem showEditorView_sound (s : State) (harr : ∃ items, s._notes = .array items)
    (hset : ∀ v ∈ ids s._notes, isSet v = true) : editorSound (_showEditorView s).state := by
  rcases showEditorView_cases s with ⟨items, j, n, hn, hf, ho⟩ | ho | ⟨hno, _⟩
  · rw [ho]
    obtain ⟨hid, hmem⟩ := find_idIs_some _ _ _ _ hf
    exact ⟨harr, hset, fun _ => resolves_of_found _ items n hn hmem hid hset⟩
  · rw [ho]
    exact editorSound_list _ harr hset rfl
  · obtain ⟨items, hi⟩ := harr
    exact absurd hi (hno items)

theorem isSet_append_default (uuid : Nat → String) (k : Nat) (items : List Note)
    (hset : ∀ v ∈ items.map Note.id, isSet v = true) :
    ∀ v ∈ (items ++ [defaultNote (uuid k)]).map Note.id, isSet v = true := by
  intro v hv
  simp only [List.map_append, List.map_cons, List.map_nil, List.mem_append,
    List.mem_singleton, defaultNote] at hv
  rcases hv with hv | hv
  · exact hset v hv
  · rw [hv]; rfl

theorem step_editorSound (uuid : Nat → String) (s : State) (e : Event) (o : Outcome)
    (hs : editorSound s) (h : step uuid s e = some o) : editorSound o.state := by
  obtain ⟨⟨items, hi⟩, hset, hres⟩ := hs
  cases e with
  | select id =>
    simp only [step, Option.some.injEq] at h
    subst h
    exact showEditorView_sound _ ⟨items, hi⟩ hset
  | add =>
    simp only [step, Option.some.injEq] at h
    subst h
    rw [addNote_eq_showEditorView uuid s items hi]
    apply showEditorView_sound _ ⟨_, rfl⟩
    rw [hi] at hset
    exact isSet_append_default uuid s.uuidCalls items hset
  | delete id =>
    simp only [step, Option.some.injEq] at h
    subst h
    rw [deleteNote_outcome uuid id s items hi]
    rw [hi] at hset
    by_cases hk : items.filter (fun n => n.id != id) = []
    · rw [if_pos hk]
      refine editorSound_list _ ⟨_, rfl⟩ ?_ rfl
      intro v hv
      simp only [Outcome.state, ids, List.map_cons, List.map_nil, List.mem_singleton,
        defaultNote] at hv
      rw [hv]; rfl
    · rw [if_neg hk]
      refine editorSound_list _ ⟨_, rfl⟩ ?_ rfl
      intro v hv
      exact hset v ((List.Sublist.map _ (List.filter_sublist _)).subset hv)
  | back =>
    simp only [step, Option.some.injEq] at h
    subst h
    rcases backButtonClicked_cases s with hb | ⟨d, hd, hb | hb⟩
    · rw [hb]; exact ⟨⟨items, hi⟩, hset, hres⟩
    · rw [hb]
      refine editorSound_list _ (sameIds_array _ _ hd items hi) ?_ rfl
      simpa [Outcome.state, sameIds_ids _ _ hd] using hset
    · rw [hb]
      refine editorSound_list _ (sameIds_array _ _ hd items hi) ?_ rfl
      simpa [Outcome.state, sameIds_ids _ _ hd] using hset
  | editTitle text =>
    obtain ⟨j, d, _, hd, rfl⟩ := titleTextChanged_cases text s o h
    exact editorSound_frame s _ ⟨⟨items, hi⟩, hset, hres⟩ hd rfl rfl
  | editContent text =>
    obtain ⟨j, d, _, hd, rfl⟩ := contentTextChanged_cases text s o h
    exact editorSound_frame s _ ⟨⟨items, hi⟩, hset, hres⟩ hd rfl rfl

theorem init_editorSound (uuid : Nat → String) (file : Resource) (items0 : List Note)
    (s0 : State) (hload : readNotes (fields file) = .array items0)
    (hids : ∀ n ∈ items0, n.id ≠ .undefined ∧ n.id ≠ .null)
    (h0 : _init uuid file = .done s0) : editorSound s0 := by
  cases items0 with
  | nil =>
    rw [bootstrap_outcome uuid file hload] at h0
    cases h0
    refine ⟨⟨_, rfl⟩, ?_, fun _ => ?_⟩
    · intro v hv
      simp only [ids, List.map_cons, List.map_nil, List.mem_singleton, defaultNote] at hv
      rw [hv]; rfl
    · simp [resolves, isSet, ids, defaultNote]
  | cons n ns =>
    rw [adopt_outcome uuid file n ns hload] at h0
    cases h0
    refine editorSound_list _ ⟨_, rfl⟩ ?_ rfl
    intro v hv
    simp only [ids, List.mem_map] at hv
    obtain ⟨m, hm, rfl⟩ := hv
    obtain ⟨h1, h2⟩ := hids m hm
    cases hmid : m.id <;> simp_all [isSet]

/-- Claim C3, as amended.  When the value loaded at startup is an array of notes
each of which has an id that is set (neither missing nor `null`; the empty array
when the file is absent, unreadable or not valid JSON), startup returns, and in
every state reached by any finite sequence of select, add, delete, back and edit
events: whenever the mode is editor, the active id is set and is the id of a note
of the collection; and selecting an id that no note has returns in list mode. -/
theorem editor_id_resolves (uuid : Nat → String) (file : Resource) (items0 : List Note)
    (hload : readNotes (fields file) = .array items0)
    (hids : ∀ n ∈ items0, n.id ≠ .undefined ∧ n.id ≠ .null) :
    ∃ s0, _init uuid file = .done s0 ∧ ∀ es,
      ((run uuid s0 es)._currentView = .editor → resolves (run uuid s0 es) = true) ∧
      (∀ id, id ∉ ids (run uuid s0 es)._notes →
        ∃ s', step uuid (run uuid s0 es) (.select id) = some (.done s') ∧
          s'._currentView = .list) := by
  obtain ⟨s0, h0⟩ := init_done_of_array uuid file items0 hload
  refine ⟨s0, h0, fun es => ?_⟩
  have hI := run_invariant uuid editorSound
    (fun s e o hs ho => step_editorSound uuid s e o hs ho) s0
    (init_editorSound uuid file items0 s0 hload hids h0) es
  obtain ⟨⟨items, hi⟩, _, hres⟩ := hI
  refine ⟨hres, fun id hid => ?_⟩
  rw [hi] at hid
  exact ⟨_, by rw [step, select_unknown_outcome _ items id hi hid], rfl⟩

/-- Witness of C3 as amended on the two notes of scenario B: after add, back,
select of N2 and a title edit the editor is on a note of the collection, and
selecting the unknown id "zzz" returns in list mode. -/
theorem editor_id_resolves_witness :
    readNotes (fields (.json (.array [groceries, todo]))) = .array [groceries, todo] ∧
    (∀ n ∈ [groceries, todo], n.id ≠ .undefined ∧ n.id ≠ .null) ∧
    (run uuidSample listOfTwo
      [.add, .back, .select (.str "n2"), .editTitle "Todo list"])._currentView = .editor ∧
    ∃ s0, _init uuidSample (.json (.array [groceries, todo])) = .done s0 ∧ ∀ es,
      ((run uuidSample s0 es)._currentView = .editor → resolves (run uuidSample s0 es) = true) ∧
      (∀ id, id ∉ ids (run uuidSample s0 es)._notes →
        ∃ s', step uuidSample (run uuidSample s0 es) (.select id) = some (.done s') ∧
          s'._currentView = .list) :=
  ⟨rfl, by simp [groceries, todo], by decide,
    editor_id_resolves uuidSample (.json (.array [groceries, todo])) [groceries, todo] rfl
      (by simp [groceries, todo])⟩

/-- Counterexample to C3 as stated: the file holds one note that has no property
`id`.  Startup adopts it and returns in list mode; the click on its button
assigns `undefined` to `_currentNoteId`, `find` matches the note because its id
is `undefined` too, and the handler returns in editor mode with no active id
set. -/
theorem editor_on_note_without_id :
    _init uuidSample idless = .done listOfIdless ∧
    listOfIdless._currentView = .list ∧
    step uuidSample listOfIdless (.select .undefined) = some (.done editorOnIdless) ∧
    editorOnIdless._currentView = .editor ∧
    editorOnIdless._currentNoteId = .undefined ∧
    resolves editorOnIdless = false := by
  decide

/-! ## Distinct ids -/

theorem uuidSample_injective : Function.Injective uuidSample := by
  intro a b h
  have := congrArg String.length h
  simpa [uuidSample, String.length] using this

theorem idsTraced_frame (uuid : Nat → String) (loaded : List JsValue) (s s' : State)
    (hs : idsTraced uuid loaded s) (hn : sameIds s._notes s'._notes)
    (hu : s'.uuidCalls = s.uuidCalls) : idsTraced uuid loaded s' := by
  obtain ⟨⟨items, hi⟩, hnd, hmem⟩ := hs
  refine ⟨sameIds_array _ _ hn items hi, ?_, ?_⟩
  · rw [sameIds_ids _ _ hn]; exact hnd
  · rw [sameIds_ids _ _ hn, hu]; exact hmem

theorem showEditorView_idsTraced (uuid : Nat → String) (loaded : List JsValue) (s : State)
    (hs : idsTraced uuid loaded s) : idsTraced uuid loaded (_showEditorView s).state := by
  rcases showEditorView_cases s with ⟨items, j, n, _, _, ho⟩ | ho | ⟨_, ho⟩ <;> rw [ho] <;>
    exact idsTraced_frame uuid loaded s _ hs (sameIds_refl _) rfl

theorem fresh_not_mem (uuid : Nat → String) (loaded : List JsValue) (s : State)
    (hinj : Function.Injective uuid) (hfresh : ∀ k, .str (uuid k) ∉ loaded)
    (hs : idsTraced uuid loaded s) : .str (uuid s.uuidCalls) ∉ ids s._notes := by
  intro hmem
  rcases hs.2.2 _ hmem with hl | ⟨k, hk, he⟩
  · exact hfresh _ hl
  · have := hinj (JsValue.str.inj he)
    omega

theorem addNote_idsTraced (uuid : Nat → String) (loaded : List JsValue) (s : State)
    (hinj : Function.Injective uuid) (hfresh : ∀ k, .str (uuid k) ∉ loaded)
    (hs : idsTraced uuid loaded s) : idsTraced uuid loaded (_addNote uuid s).state := by
  have hnew := fresh_not_mem uuid loaded s hinj hfresh hs
  obtain ⟨⟨items, hi⟩, hnd, hmem⟩ := hs
  rw [addNote_eq_showEditorView uuid s items hi]
  apply showEditorView_idsTraced
  rw [hi] at hnd hmem hnew
  simp only [ids] at hnd hmem hnew
  refine ⟨⟨_, rfl⟩, ?_, ?_⟩
  · simp only [ids, List.map_append, List.map_cons, List.map_nil, defaultNote]
    exact List.Nodup.append hnd (List.nodup_singleton _) (by simpa using hnew)
  · intro x hx
    simp only [ids, List.map_append, List.map_cons, List.map_nil, defaultNote,
      List.mem_append, List.mem_singleton] at hx
    rcases hx with hx | hx
    · rcases hmem x hx with hl | ⟨k, hk, he⟩
      · exact Or.inl hl
      · exact Or.inr ⟨k, Nat.lt_succ_of_lt hk, he⟩
    · exact Or.inr ⟨s.uuidCalls, Nat.lt_succ_self _, hx.symm⟩

theorem deleteNote_idsTraced (uuid : Nat → String) (loaded : List JsValue) (noteId : JsValue)
    (s : State) (hs : idsTraced uuid loaded s) :
    idsTraced uuid loaded (_deleteNote uuid noteId s).state := by
  obtain ⟨⟨items, hi⟩, hnd, hmem⟩ := hs
  rw [deleteNote_outcome uuid noteId s items hi]
  rw [hi] at hnd hmem
  simp only [ids] at hnd hmem
  by_cases hk : items.filter (fun n => n.id != noteId) = []
  · rw [if_pos hk]
    refine ⟨⟨_, rfl⟩, by simp [Outcome.state, ids], ?_⟩
    intro x hx
    simp only [Outcome.state, ids, List.map_cons, List.map_nil, defaultNote,
      List.mem_singleton] at hx
    exact Or.inr ⟨s.uuidCalls, Nat.lt_succ_self _, hx.symm⟩
  · rw [if_neg hk]
    refine ⟨⟨_, rfl⟩, ?_, ?_⟩
    · exact List.Nodup.sublist (List.Sublist.map _ (List.filter_sublist _)) hnd
    · intro x hx
      exact hmem x ((List.Sublist.map _ (List.filter_sublist _)).subset hx)

theorem step_idsTraced (uuid : Nat → String) (loaded : List JsValue)
    (hinj : Function.Injective uuid) (hfresh : ∀ k, .str (uuid k) ∉ loaded)
    (s : State) (e : Event) (o : Outcome)
    (hs : idsTraced uuid loaded s) (h : step uuid s e = some o) :
    idsTraced uuid loaded o.state := by
  cases e with
  | select id =>
    simp only [step, Option.some.injEq] at h
    subst h
    exact showEditorView_idsTraced uuid loaded _
      (idsTraced_frame uuid loaded s _ hs (sameIds_refl _) rfl)
  | add =>
    simp only [step, Option.some.injEq] at h
    subst h
    exact addNote_idsTraced uuid loaded s hinj hfresh hs
  | delete id =>
    simp only [step, Option.some.injEq] at h
    subst h
    exact deleteNote_idsTraced uuid loaded id s hs
  | back =>
    simp only [step, Option.some.injEq] at h
    subst h
    rcases backButtonClicked_cases s with hb | ⟨d, hd, hb | hb⟩
    · rw [hb]; exact hs
    · rw [hb]; exact idsTraced_frame uuid loaded s _ hs hd rfl
    · rw [hb]; exact idsTraced_frame uuid loaded s _ hs hd rfl
  | editTitle text =>
    obtain ⟨j, d, _, hd, rfl⟩ := titleTextChanged_cases text s o h
    exact idsTraced_frame uuid loaded s _ hs hd rfl
  | editContent text =>
    obtain ⟨j, d, _, hd, rfl⟩ := contentTextChanged_cases text s o h
    exact idsTraced_frame uuid loaded s _ hs hd rfl

theorem init_idsTraced (uuid : Nat → String) (file : Resource) (items : List Note)
    (hload : readNotes (fields file) = .array items) (hnodup : (items.map Note.id).Nodup) :
    idsTraced uuid (items.map Note.id) (_init uuid file).state := by
  cases items with
  | nil =>
    rw [bootstrap_outcome uuid file hload]
    refine ⟨⟨_, rfl⟩, by simp [Outcome.state, ids], ?_⟩
    intro x hx
    simp only [Outcome.state, ids, List.map_cons, List.map_nil, defaultNote,
      List.mem_singleton] at hx
    exact Or.inr ⟨0, by simp [Outcome.state], hx.symm⟩
  | cons n ns =>
    rw [adopt_outcome uuid file n ns hload]
    exact ⟨⟨_, rfl⟩, hnodup, fun x hx => Or.inl hx⟩

/-- Claim C2, as amended.  When the value loaded at startup is an array of notes
with pairwise distinct ids (the empty array when the file is absent, unreadable
or not valid JSON), and each call of the id generator returns an id that it has
not returned before and that no loaded note has, then startup returns and after
any finite sequence of add and delete events (and of select, back and edit
events) `_notes` is an array of notes with pairwise distinct ids. -/
theorem ids_stay_distinct (uuid : Nat → String) (file : Resource) (items0 : List Note)
    (es : List Event)
    (hload : readNotes (fields file) = .array items0)
    (hnodup : (items0.map Note.id).Nodup)
    (hinj : Function.Injective uuid)
    (hfresh : ∀ k, .str (uuid k) ∉ items0.map Note.id) :
    ∃ s0, _init uuid file = .done s0 ∧
      ∃ items, (run uuid s0 es)._notes = .array items ∧ (items.map Note.id).Nodup := by
  obtain ⟨s0, h0⟩ := init_done_of_array uuid file items0 hload
  have hinit : idsTraced uuid (items0.map Note.id) s0 := by
    have := init_idsTraced uuid file items0 hload hnodup
    rwa [h0] at this
  have hI := run_invariant uuid (idsTraced uuid (items0.map Note.id))
    (fun s e o hs ho => step_idsTraced uuid _ hinj hfresh s e o hs ho) s0 hinit es
  obtain ⟨⟨items, hi⟩, hnd, _⟩ := hI
  rw [hi] at hnd
  exact ⟨s0, h0, items, hi, hnd⟩

theorem uuidSample_head (k : Nat) : ∃ t, (uuidSample k).data = 'u' :: t :=
  ⟨List.replicate k 'u', by simp [uuidSample, List.replicate_succ]⟩

/-- Witness of C2 as amended: the two notes of scenario B are on file, a note is
added, N1 is deleted and another note is added. -/
theorem ids_stay_distinct_witness :
    readNotes (fields (.json (.array [groceries, todo]))) = .array [groceries, todo] ∧
    ([groceries, todo].map Note.id).Nodup ∧
    Function.Injective uuidSample ∧
    (∀ k, .str (uuidSample k) ∉ [groceries, todo].map Note.id) ∧
    ∃ s0, _init uuidSample (.json (.array [groceries, todo])) = .done s0 ∧
      ∃ items, (run uuidSample s0 [.add, .back, .delete (.str "n1"), .add])._notes
          = .array items ∧
        (items.map Note.id).Nodup :=
  have hfresh : ∀ k, .str (uuidSample k) ∉ [groceries, todo].map Note.id := by
    intro k hk
    obtain ⟨t, ht⟩ := uuidSample_head k
    simp only [List.map_cons, List.map_nil, List.mem_cons, List.mem_singleton,
      List.not_mem_nil, or_false, groceries, todo, JsValue.str.injEq] at hk
    rcases hk with hk | hk <;> rw [hk] at ht <;> simp at ht
  ⟨rfl, by decide, uuidSample_injective, hfresh,
    ids_stay_distinct uuidSample _ [groceries, todo] _ rfl (by decide) uuidSample_injective hfresh⟩

/-- The generator must also avoid the ids on file: with the single note of id "u"
on file, the first generated id "u" is new to the generator and yet `add` leaves
two notes of that id. -/
theorem generated_id_may_be_on_file :
    ids (run uuidSample
      (_init uuidSample (.json (.array [{ id := .str "u", title := "T", content := "" }]))).state
      [.add])._notes = [.str "u", .str "u"] := by
  decide

/-- Counterexample to C2 as stated: the file holds two notes with the same id
"n1"; `_loadNotes` adopts them as they are, and with a generator that never
repeats an id the collection after startup, and after an add and a delete, holds
the id "n1" twice. -/
theorem loaded_ids_may_repeat :
    Function.Injective uuidSample ∧
    _init uuidSample duplicated = .done (_init uuidSample duplicated).state ∧
    ids (_init uuidSample duplicated).state._notes = [.str "n1", .str "n1"] ∧
    ids (run uuidSample (_init uuidSample duplicated).state [.add, .delete (.str "u")])._notes
      = [.str "n1", .str "n1"] ∧
    ¬ (ids (run uuidSample (_init uuidSample duplicated).state
        [.add, .delete (.str "u")])._notes).Nodup :=
  ⟨uuidSample_injective, by decide, by decide, by decide, by decide⟩

/-! ## The back button -/

theorem back_outcome (s : State) (items : List Note) (id : JsValue) (i : Nat) (n : Note)
    (t c : String) (hn : s._notes = .array items) (hid : s._currentNoteId = id)
    (hf : find (idIs id) items = some (i, n))
    (ht : s._titleEntry = some t) (hc : s._contentEntry = some c) :
    backButtonClicked s = .done
      { s with _notes := .array (if falsy id = true then items
                 else assign (fun n => { n with title := t, content := c }) i items),
               _currentView := .list, _container := .listBox } := by
  obtain ⟨notes, cur, view, cont, te, ce, st, uc⟩ := s
  simp only at hn hid ht hc
  subst hn hid ht hc
  by_cases he : falsy cur = true
  · simp [backButtonClicked, _saveCurrentNote, he, Outcome.andThen, _showListView]
  · simp [backButtonClicked, _saveCurrentNote, he, hf, Outcome.andThen, _showListView]

/-- Claim C4, as amended.  On a state whose active id is the id of a note of the
collection and whose two entries hold the texts `t` and `c` (in particular in
editor mode on that note), the back button returns in list mode with the entries
flushed into the collection in memory: when the active id is truthy the active
note has title `t` and content `c`, when it is falsy (as the empty string) the
flush is skipped and the collection is as the edit handlers left it; every
other note is unchanged.  No save is triggered: the file is what it was before
`back`.  The file is written by `_saveNotes`, when the menu closes and on
`destroy`: a successful write then makes it equal to the collection in memory. -/
theorem back_flushes_in_memory (s : State) (items : List Note) (id : JsValue) (i : Nat)
    (n : Note) (t c : String) (hn : s._notes = .array items)
    (hid : s._currentNoteId = id)
    (hf : find (idIs id) items = some (i, n))
    (ht : s._titleEntry = some t) (hc : s._contentEntry = some c) :
    ∃ s' items', backButtonClicked s = .done s' ∧ s'._currentView = .list ∧
      s'._notes = .array items' ∧ items'.length = items.length ∧
      (∀ j, j ≠ i → items'[j]? = items[j]?) ∧
      (falsy id = false → items'[i]? = some { n with title := t, content := c }) ∧
      (falsy id = true → items' = items) ∧
      s'.stored = s.stored ∧
      (menuStateChanged false true s').state.stored = .json s'._notes ∧
      (destroy true s').state.stored = .json s'._notes := by
  refine ⟨_, _, back_outcome s items id i n t c hn hid hf ht hc, rfl, rfl, ?_, ?_, ?_, ?_,
    rfl, rfl, rfl⟩
  · split
    · rfl
    · exact assign_length _ _ _
  · intro j hj
    split
    · rfl
    · exact assign_get_ne _ i j items hj
  · intro he
    rw [if_neg (by simp [he])]
    exact assign_get_eq _ i items n (find_some_spec _ _ _ _ hf).1
  · intro he
    rw [if_pos he]

/-- Witness of C4 as amended, on scenario B: the editor is on N2 with its content
edited, and `back` is clicked. -/
theorem back_flushes_in_memory_witness :
    editorOnTodo._notes = .array [groceries, { todo with content := "Call Bob at 5pm" }] ∧
    editorOnTodo._currentNoteId = .str "n2" ∧
    find (idIs (.str "n2")) [groceries, { todo with content := "Call Bob at 5pm" }]
      = some (1, { todo with content := "Call Bob at 5pm" }) ∧
    editorOnTodo._titleEntry = some "Todo" ∧
    editorOnTodo._contentEntry = some "Call Bob at 5pm" ∧
    ∃ s' items', backButtonClicked editorOnTodo = .done s' ∧ s'._currentView = .list ∧
      s'._notes = .array items' ∧
      items'.length = [groceries, { todo with content := "Call Bob at 5pm" }].length ∧
      (∀ j, j ≠ 1 → items'[j]? = [groceries, { todo with content := "Call Bob at 5pm" }][j]?) ∧
      (falsy (.str "n2") = false → items'[1]? =
        some { ({ todo with content := "Call Bob at 5pm" } : Note) with
                 title := "Todo", content := "Call Bob at 5pm" }) ∧
      (falsy (.str "n2") = true →
        items' = [groceries, { todo with content := "Call Bob at 5pm" }]) ∧
      s'.stored = editorOnTodo.stored ∧
      (menuStateChanged false true s').state.stored = .json s'._notes ∧
      (destroy true s').state.stored = .json s'._notes :=
  ⟨by decide, by decide, by decide, by decide, by decide,
    back_flushes_in_memory editorOnTodo _ (.str "n2") 1 _ "Todo" "Call Bob at 5pm"
      (by decide) (by decide) (by decide) (by decide) (by decide)⟩

/-- Counterexample to C4 as stated, on scenario B: the file holds N1 and N2, N2 is
selected and its content edited to "Call Bob at 5pm", and `back` is clicked.
The handler returns in list mode with the new content in memory, but the file
still holds the old content of N2: `back` calls `_saveCurrentNote` and
`_showListView`, not `_saveNotes`. -/
theorem back_does_not_save :
    editorOnTodo._currentView = .editor ∧ resolves editorOnTodo = true ∧
    backButtonClicked editorOnTodo = .done scenarioB ∧
    scenarioB._currentView = .list ∧
    scenarioB._notes = .array [groceries, { todo with content := "Call Bob at 5pm" }] ∧
    scenarioB.stored = .json (.array [groceries, todo]) ∧
    scenarioB.stored ≠ .json scenarioB._notes := by
  decide

end StickyNotes
